import Mathlib

/-!
Verification development for the Historical District Attribution Resolver of
the CAC repository (districtService.ts and the Map component).

The embedding below is a shallow, executable translation of the TypeScript
source.  Network and storage retrieval (the browser fetch calls) are modelled
by an explicit, immutable World record mapping request URLs to optional
response payloads; a missing entry models both a non-ok response and a thrown
network error, which the source treats identically.  The module-level mutable
caches (shapeCache, stateEraCollectionCache) are threaded explicitly as a
state record, and every function additionally returns the list of URLs it
fetched, so that fetch-count properties can be stated.  JavaScript numbers
used as geographic coordinates are modelled by integers; years and vintages
by integers and naturals.  Asynchronous interleaving of the loadRealData
invocations in the Map component is modelled by a small step machine over
traces, mirroring the generation-counter guard in the source.
-/

namespace CAC

/-- Chamber of a legislator term, source type is the string union
House | Senate in congressionalDataLoader.ts. -/
inductive Chamber where
  | house
  | senate
deriving DecidableEq

/-- The fields of LegislatorTerm (congressionalDataLoader.ts) that the
shape fetcher reads.  district is the optional district number; the absent
case models the undefined value. -/
structure LegislatorTerm where
  bioguide : String
  fullName : String
  party : String
  state : String
  chamber : Chamber
  district : Option Nat
  wikipedia : String

/-- A JSON coordinate tree: the coordinates field of a GeoJSON geometry is an
arbitrarily nested array of numbers.  Numbers are modelled by integers; the
bounding-box computation only subtracts and compares coordinates, so the
fractional part of a JavaScript float plays no role in any claim. -/
inductive JArr where
  | num (q : Int)
  | arr (l : List JArr)

/-- A geometry payload.  The source treats a geometry as an object whose
coordinates field may be absent (calculateBoundingBox checks
geometry.coordinates before flattening). -/
structure Geometry where
  coordinates : Option JArr

/-- One feature of a 1789-2012 bulk state collection: the source reads
String(f.properties.district) and f.geometry.  district holds the result of
the String(...) conversion; none models an absent properties.district, whose
String image "undefined" never matches a candidate label. -/
structure SFeature where
  district : Option String
  geometry : Option Geometry

/-- A bulk per-state collection payload; features is none when the parsed
JSON has no array-valued features field (the Array.isArray check). -/
structure StateColl where
  features : Option (List SFeature)

/-- The type tag of a fetched GeoJSON payload (geojson.type in the source). -/
inductive GeoJsonType where
  | feature
  | featureCollection
  | otherType

/-- A per-district or per-state GeoJSON response, duck-typed as in the
source: geometry is the optional geometry field, firstFeatureGeometry is
features[0].geometry for collections, and self is the payload itself viewed
as a geometry (the geojson.geometry or-else geojson branch). -/
structure GeoJson where
  jtype : GeoJsonType
  geometry : Option Geometry
  firstFeatureGeometry : Option Geometry
  self : Geometry

/-- The immutable outside world: every fetchable URL is mapped to an optional
payload.  cds serves /districts/cds/..., bulk serves /districts/1789-2012/...,
stateShape serves /districts/states/... -/
structure World where
  cds : String → Option GeoJson
  bulk : String → Option StateColl
  stateShape : String → Option GeoJson

/-- The module-level mutable caches of districtService.ts, threaded
explicitly. -/
structure St where
  shapeCache : List (String × Geometry)
  collCache : List (String × StateColl)

/-- Lookup in an insertion-ordered association list, modelling Map.get --
the first binding for the key wins (there is never more than one). -/
def mget {κ α : Type} [BEq κ] (m : List (κ × α)) (k : κ) : Option α :=
  (m.find? (fun p => p.1 == k)).map (fun p => p.2)

/-- Map.set on an insertion-ordered association list: overwrite in place if
the key is present, append otherwise. -/
def mset {κ α : Type} [BEq κ] (m : List (κ × α)) (k : κ) (v : α) :
    List (κ × α) :=
  match m with
  | [] => [(k, v)]
  | p :: rest => if p.1 == k then (k, v) :: rest else p :: mset rest k v

/-- The stateNameMap table of districtService.ts, mapping postal
abbreviations to 1789-2012 file state names. -/
def stateNameMap : List (String × String) :=
  [("AL", "Alabama"), ("AK", "Alaska"), ("AZ", "Arizona"), ("AR", "Arkansas"),
   ("CA", "California"), ("CO", "Colorado"), ("CT", "Connecticut"),
   ("DE", "Delaware"), ("DC", "District_Of_Columbia"), ("FL", "Florida"),
   ("GA", "Georgia"), ("HI", "Hawaii"), ("ID", "Idaho"), ("IL", "Illinois"),
   ("IN", "Indiana"), ("IA", "Iowa"), ("KS", "Kansas"), ("KY", "Kentucky"),
   ("LA", "Louisiana"), ("ME", "Maine"), ("MD", "Maryland"),
   ("MA", "Massachusetts"), ("MI", "Michigan"), ("MN", "Minnesota"),
   ("MS", "Mississippi"), ("MO", "Missouri"), ("MT", "Montana"),
   ("NE", "Nebraska"), ("NV", "Nevada"), ("NH", "New_Hampshire"),
   ("NJ", "New_Jersey"), ("NM", "New_Mexico"), ("NY", "New_York"),
   ("NC", "North_Carolina"), ("ND", "North_Dakota"), ("OH", "Ohio"),
   ("OK", "Oklahoma"), ("OR", "Oregon"), ("PA", "Pennsylvania"),
   ("RI", "Rhode_Island"), ("SC", "South_Carolina"), ("SD", "South_Dakota"),
   ("TN", "Tennessee"), ("TX", "Texas"), ("UT", "Utah"), ("VT", "Vermont"),
   ("VA", "Virginia"), ("WA", "Washington"), ("WV", "West_Virginia"),
   ("WI", "Wisconsin"), ("WY", "Wyoming"), ("PR", "Puerto_Rico"),
   ("GU", "Guam"), ("VI", "Virgin_Islands"),
   ("MP", "Northern_Mariana_Islands"), ("AS", "American_Samoa")]

/-- abbrToStateName from districtService.ts. -/
def abbrToStateName (abbr : String) : Option String :=
  mget stateNameMap abbr

/-- eraToCongressRange from districtService.ts.  The era arguments arising
at call sites are getDistrictEra outputs, all at least 1962, so natural
division agrees with the Math.floor of the source. -/
def eraToCongressRange (era : Nat) : Option (Nat × Nat) :=
  if era > 2002 then none
  else
    let start := (era + 1 - 1789) / 2 + 1
    some (start, start + 4)

/-- getDistrictEra from districtService.ts: maps a calendar year to the
boundary vintage in force. -/
def getDistrictEra (year : Int) : Nat :=
  if year ≥ 2023 then 2022
  else if year ≥ 2013 then 2012
  else if year ≥ 2003 then 2002
  else if year ≥ 1993 then 1992
  else if year ≥ 1983 then 1982
  else if year ≥ 1973 then 1972
  else if year ≥ 1963 then 1962
  else 1962

/-- URL of a per-district record, as interpolated in the source:
/districts/cds/era/code/shape.geojson. -/
def cdsUrl (era : Nat) (code : String) : String :=
  s!"/districts/cds/{era}/{code}/shape.geojson"

/-- URL of a whole-state boundary record:
/districts/states/state/shape.geojson. -/
def stateUrl (state : String) : String :=
  s!"/districts/states/{state}/shape.geojson"

/-- URL of a 1789-2012 bulk state collection:
/districts/1789-2012/StateName_start_to_end.geojson. -/
def bulkUrl (stateName : String) (a b : Nat) : String :=
  s!"/districts/1789-2012/{stateName}_{a}_to_{b}.geojson"

/-- Cache key era-code, as interpolated in the source. -/
def eraKey (era : Nat) (code : String) : String :=
  s!"{era}-{code}"

mutual

/-- The flatten closure of calculateBoundingBox: an array of exactly two
numbers is one coordinate pair; any other array is traversed recursively;
a bare number contributes nothing. -/
def flattenJ : JArr → List (Int × Int)
  | .num _ => []
  | .arr [.num a, .num b] => [(a, b)]
  | .arr l => flattenJList l

/-- flatten applied elementwise to an array, in order. -/
def flattenJList : List JArr → List (Int × Int)
  | [] => []
  | x :: xs => flattenJ x ++ flattenJList xs

end

/-- Bounding box record produced by calculateBoundingBox. -/
structure BBox where
  minLon : Int
  maxLon : Int
  minLat : Int
  maxLat : Int

/-- calculateBoundingBox from districtService.ts.  The Infinity initial
accumulators of the source combined with a nonempty coordinate list are
modelled by folding from the first coordinate. -/
def calculateBoundingBox (g : Geometry) : Option BBox :=
  match g.coordinates with
  | none => none
  | some j =>
    match flattenJ j with
    | [] => none
    | c :: cs =>
      some (cs.foldl
        (fun b p =>
          ⟨min b.minLon p.1, max b.maxLon p.1, min b.minLat p.2, max b.maxLat p.2⟩)
        ⟨c.1, c.1, c.2, c.2⟩)

/-- The implausibility test of the source: a geometry is rejected when its
bounding box exists and either span strictly exceeds 30 degrees. -/
def bboxBad (g : Geometry) : Bool :=
  match calculateBoundingBox g with
  | some b => decide (b.maxLon - b.minLon > 30) || decide (b.maxLat - b.minLat > 30)
  | none => false

/-- Normalization of a per-district GeoJSON payload to a bare geometry
(lines handling geojson.type in fetchDistrictShape): a Feature contributes
its geometry field, a FeatureCollection the geometry of its first feature,
anything else its geometry field or, failing that, the payload itself. -/
def normalizeCds (gj : GeoJson) : Option Geometry :=
  match gj.jtype with
  | .feature => gj.geometry
  | .featureCollection => gj.firstFeatureGeometry
  | .otherType => some (gj.geometry.getD gj.self)

/-- Normalization of a whole-state payload (the stateGeo conditional):
a Feature contributes its geometry field, anything else its geometry field
or the payload itself.  A FeatureCollection has no geometry field, so it is
used verbatim. -/
def normalizeStateGeo (gj : GeoJson) : Option Geometry :=
  match gj.jtype with
  | .feature => gj.geometry
  | _ => some (gj.geometry.getD gj.self)

/-- The district label attached to output features: AL for the at-large
sentinel 0, the decimal spelling otherwise. -/
def dLabel (d : Nat) : String :=
  if d = 0 then "AL" else toString d

/-- The ordered candidate district codes for one term (the candidates
array): both at-large spellings for district 0, the single numbered code
otherwise. -/
def candidatesFor (state : String) (d : Nat) : List String :=
  if d = 0 then [s!"{state}-AL", s!"{state}-0"]
  else
    let ds := toString d
    [s!"{state}-{ds}"]

/-- The fixed fallback vintage list of the source with the requested
vintage filtered out. -/
def fallbackEras (era : Nat) : List Nat :=
  [2012, 2002, 1992, 1982, 1972, 1962].filter (fun e => e != era)

/-- The candidate codes of the 2012 retry for post-2020 numbered districts:
district 1, the at-large label and the at-large sentinel of the state. -/
def hackCandidates (state : String) : List String :=
  [s!"{state}-1", s!"{state}-AL", s!"{state}-0"]

/-- The flat property bag plus geometry of a returned Feature, matching the
properties object assembled at every return site of fetchDistrictShape. -/
structure OutFeature where
  geometry : Geometry
  key : String
  party : String
  state : String
  district : String
  bioguide : String
  name : String
  wikipedia : String
  era : Nat

/-- Assemble the returned feature for a term: geometry, the used code, the
per-term metadata and the era annotation. -/
def mkFeature (term : LegislatorTerm) (g : Geometry) (key : String)
    (district : String) (era : Nat) : OutFeature :=
  ⟨g, key, term.party, term.state, district, term.bioguide, term.fullName,
   term.wikipedia, era⟩

/-- load1789StateCollection from districtService.ts: resolve the state name
and congress range, consult the collection cache, otherwise fetch the bulk
file, caching it only on success.  Returns the collection, the updated
caches and the list of URLs fetched. -/
def load1789StateCollection (w : World) (stateAbbr : String) (era : Nat)
    (st : St) : Option StateColl × St × List String :=
  match abbrToStateName stateAbbr, eraToCongressRange era with
  | some stateName, some r =>
    let key := eraKey era stateAbbr
    match mget st.collCache key with
    | some coll => (some coll, st, [])
    | none =>
      let path := bulkUrl stateName r.1 r.2
      match w.bulk path with
      | none => (none, st, [path])
      | some coll =>
        (some coll, { st with collCache := mset st.collCache key coll }, [path])
  | _, _ => (none, st, [])

/-- One pass over a list of (era, code) pairs, fetching each per-district
URL until the first ok response; models both the primary candidate loop and
the era-major nested fallback loop (whose break-outer makes it a single
first-hit scan over era-code pairs).  Returns the payload with the code and
era that produced it, plus all URLs fetched. -/
def tryPairs (w : World) : List (Nat × String) →
    Option (GeoJson × String × Nat) × List String
  | [] => (none, [])
  | (e, c) :: rest =>
    let u := cdsUrl e c
    match w.cds u with
    | some gj => (some (gj, c, e), [u])
    | none =>
      let r := tryPairs w rest
      (r.1, u :: r.2)

/-- The cache-hit loop of fetchDistrictShape: the first candidate code whose
era-keyed entry is cached wins. -/
def cacheLookup (cache : List (String × Geometry)) (era : Nat) :
    List String → Option (String × Geometry)
  | [] => none
  | c :: cs =>
    match mget cache (eraKey era c) with
    | some g => some (c, g)
    | none => cacheLookup cache era cs

/-- Fetch and normalize the whole-state boundary record. -/
def fetchStateGeom (w : World) (state : String) :
    Option Geometry × List String :=
  let u := stateUrl state
  match w.stateShape u with
  | none => (none, [u])
  | some gj => (normalizeStateGeo gj, [u])

/-- Continuation of fetchDistrictShape after a per-district payload has been
normalized to a geometry (the bounding-box validation block and the final
return): an implausible geometry triggers the whole-state substitution,
caching the state geometry under the actually used era and code and
annotating the feature with the used era; a plausible geometry is cached
under the actually used era and code but annotated with the requested
era. -/
def postNormalize (w : World) (term : LegislatorTerm) (d : Nat) (era : Nat)
    (geometry : Geometry) (usedCode : String) (usedEra : Nat) (st : St) :
    Option OutFeature × St × List String :=
  if bboxBad geometry then
    match fetchStateGeom w term.state with
    | (some sg, lg) =>
      (some (mkFeature term sg usedCode (dLabel d) usedEra),
       { st with shapeCache := mset st.shapeCache (eraKey usedEra usedCode) sg },
       lg)
    | (none, lg) => (none, st, lg)
  else
    (some (mkFeature term geometry usedCode (dLabel d) era),
     { st with shapeCache := mset st.shapeCache (eraKey usedEra usedCode) geometry },
     [])

/-- Continuation of fetchDistrictShape once the per-district fetch loops are
done.  With no payload, the whole-state fallback fires unconditionally,
caching under the requested era and the first candidate code; with a
payload, it is normalized and validated. -/
def handleFound (w : World) (term : LegislatorTerm) (d : Nat) (era : Nat) :
    Option (GeoJson × String × Nat) → St → Option OutFeature × St × List String
  | none, st =>
    match fetchStateGeom w term.state with
    | (some sg, lg) =>
      let used := (candidatesFor term.state d).headD ""
      (some (mkFeature term sg used (dLabel d) era),
       { st with shapeCache := mset st.shapeCache (eraKey era used) sg },
       lg)
    | (none, lg) => (none, st, lg)
  | some (gj, usedCode, usedEra), st =>
    match normalizeCds gj with
    | none => (none, st, [])
    | some geometry => postNormalize w term d era geometry usedCode usedEra st

/-- The per-district resolution chain of fetchDistrictShape: cache-hit loop,
primary-era candidate loop, fallback-era loop, the 2012 retry for post-2020
numbered districts above 1, then normalization, validation and the
whole-state fallback via handleFound. -/
def perDistrictPhase (w : World) (term : LegislatorTerm) (d : Nat)
    (era : Nat) (st : St) : Option OutFeature × St × List String :=
  let cands := candidatesFor term.state d
  match cacheLookup st.shapeCache era cands with
  | some (code, g) => (some (mkFeature term g code (dLabel d) era), st, [])
  | none =>
    let pr := tryPairs w (cands.map (fun c => (era, c)))
    match pr.1 with
    | some r =>
      let hf := handleFound w term d era (some r) st
      (hf.1, hf.2.1, pr.2 ++ hf.2.2)
    | none =>
      let fb := tryPairs w
        ((fallbackEras era).flatMap (fun fe => cands.map (fun c => (fe, c))))
      match fb.1 with
      | some r =>
        let hf := handleFound w term d era (some r) st
        (hf.1, hf.2.1, pr.2 ++ fb.2 ++ hf.2.2)
      | none =>
        if 2022 ≤ era ∧ 1 < d then
          let hk := tryPairs w ((hackCandidates term.state).map (fun c => (2012, c)))
          let hf := handleFound w term d era hk.1 st
          (hf.1, hf.2.1, pr.2 ++ fb.2 ++ hk.2 ++ hf.2.2)
        else
          let hf := handleFound w term d era none st
          (hf.1, hf.2.1, pr.2 ++ fb.2 ++ hf.2.2)

/-- The bulk 1789-2012 branch of fetchDistrictShape, taken for vintages at
most 2002: load the state collection, search it for the first feature whose
district label matches a candidate spelling, and on a match with a geometry
cache it (only if the key is absent) and return it.  A none result means
the branch fell through to the per-district chain. -/
def bulkPhase (w : World) (term : LegislatorTerm) (d : Nat) (era : Nat)
    (st : St) : Option OutFeature × St × List String :=
  if era ≤ 2002 then
    match load1789StateCollection w term.state era st with
    | (some coll, st1, lg) =>
      match coll.features with
      | some feats =>
        let targets := if d = 0 then ["AL", "0"] else [toString d]
        match feats.find? (fun f =>
            match f.district with
            | some s => targets.contains s
            | none => false) with
        | some feat =>
          match feat.geometry with
          | some g =>
            let t0 := targets.headD ""
            let s0 := term.state
            let usedCode := s!"{s0}-{t0}"
            let cacheKey := eraKey era usedCode
            let st2 :=
              if (mget st1.shapeCache cacheKey).isSome then st1
              else { st1 with shapeCache := mset st1.shapeCache cacheKey g }
            (some (mkFeature term g usedCode (dLabel d) era), st2, lg)
          | none => (none, st1, lg)
        | none => (none, st1, lg)
      | none => (none, st1, lg)
    | (none, st1, lg) => (none, st1, lg)
  else (none, st, [])

/-- fetchDistrictShape from districtService.ts (the copy carrying the
bounding-box validation, which the rest of the service and the claims
reference).  Senate terms and House terms without a district number resolve
to none immediately; otherwise the bulk branch runs first for vintages at
most 2002, then the per-district chain. -/
def fetchDistrictShape (w : World) (term : LegislatorTerm)
    (selectedYear : Int) (st : St) : Option OutFeature × St × List String :=
  if term.chamber = Chamber.senate then (none, st, [])
  else
    match term.district with
    | none => (none, st, [])
    | some d =>
      let era := getDistrictEra selectedYear
      match bulkPhase w term d era st with
      | (some f, st1, lg) => (some f, st1, lg)
      | (none, st1, lg) =>
        let pd := perDistrictPhase w term d era st1
        (pd.1, pd.2.1, lg ++ pd.2.2)

/-- The deduplication code of the batch resolver (fetchAllDistrictShapesForYear):
an absent district number defaults to 0, and 0 is spelled AL. -/
def dedupCode (t : LegislatorTerm) : String :=
  let did := t.district.getD 0
  let label := if did = 0 then "AL" else toString did
  let s0 := t.state
  s!"{s0}-{label}"

/-- The byDistrict insertion fold: House terms only, first occurrence per
district code wins, insertion order preserved. -/
def byDistrictAux (m : List (String × LegislatorTerm)) :
    List LegislatorTerm → List (String × LegislatorTerm)
  | [] => m
  | t :: ts =>
    if t.chamber = Chamber.house then
      let code := dedupCode t
      if (mget m code).isSome then byDistrictAux m ts
      else byDistrictAux (m ++ [(code, t)]) ts
    else byDistrictAux m ts

/-- The deduplicated unique term list driven by the batch resolver. -/
def uniqueTermsOf (terms : List LegislatorTerm) : List LegislatorTerm :=
  (byDistrictAux [] terms).map (fun p => p.2)

/-- Sequential resolution of a term list, collecting the successful
features in order and threading the caches; this is the Promise.all batching
of the source sequentialized (batches of 16 run one after the other, and
within a batch order is irrelevant to the collected output). -/
def resolveSeq (w : World) (year : Int) (st : St) :
    List LegislatorTerm → List OutFeature × St × List String
  | [] => ([], st, [])
  | t :: ts =>
    match fetchDistrictShape w t year st with
    | (some f, st1, lg) =>
      let r := resolveSeq w year st1 ts
      (f :: r.1, r.2.1, lg ++ r.2.2)
    | (none, st1, lg) =>
      let r := resolveSeq w year st1 ts
      (r.1, r.2.1, lg ++ r.2.2)

/-- fetchAllDistrictShapesForYear from districtService.ts: deduplicate by
district code, resolve every unique district, and collect the successful
features into one collection; failed districts are silently absent. -/
def fetchAllDistrictShapesForYear (w : World) (terms : List LegislatorTerm)
    (selectedYear : Int) (st : St) : List OutFeature × St × List String :=
  resolveSeq w selectedYear st (uniqueTermsOf terms)

/-- One observable step of a loadRealData invocation in the Map component:
start models the entry of loadRealData (the increment and capture of
loadCounterRef), rosterCheck the staleness re-check after the roster lookup,
publish the staleness re-check after shape resolution followed, on success,
by drawing the features.  The drawing region contains no further suspension
point, so it is atomic with its check. -/
inductive LoadStep where
  | start (inv : Nat)
  | rosterCheck (inv : Nat)
  | publish (inv : Nat)
deriving DecidableEq

/-- Shared state of the Map component across overlapping loadRealData
invocations: the generation counter loadCounterRef, the captured loadId of
each invocation, the invocations already abandoned at the roster check, and
the ordered list of invocations whose features reached the shared UI. -/
structure LoadState where
  counter : Nat
  captured : List (Nat × Nat)
  abortedAtRoster : List Nat
  published : List Nat

/-- The state transition of one step, mirroring loadRealData: a start
increments the counter and captures its new value; a check compares the
captured value with the current counter and abandons on mismatch; a publish
additionally requires that the invocation was not already abandoned. -/
def loadStep (s : LoadState) : LoadStep → LoadState
  | .start inv =>
    let c := s.counter + 1
    { s with counter := c, captured := mset s.captured inv c }
  | .rosterCheck inv =>
    match mget s.captured inv with
    | some id =>
      if id = s.counter then s
      else { s with abortedAtRoster := s.abortedAtRoster ++ [inv] }
    | none => s
  | .publish inv =>
    match mget s.captured inv with
    | some id =>
      if id = s.counter ∧ ¬ inv ∈ s.abortedAtRoster then
        { s with published := s.published ++ [inv] }
      else s
    | none => s

/-- Run a trace of interleaved invocation steps from a state. -/
def loadRun (s : LoadState) (l : List LoadStep) : LoadState :=
  l.foldl loadStep s

/-- The Map component state before any invocation. -/
def initLoadState : LoadState :=
  ⟨0, [], [], []⟩

/-- The generation-counter invariant: every captured load id is bounded by
the current counter value. -/
def CapInv (s : LoadState) : Prop :=
  ∀ i id, mget s.captured i = some id → id ≤ s.counter

/-- A small, plausible district geometry (one degree across). -/
def gSmall : Geometry :=
  ⟨some (.arr [.arr [.num 0, .num 0], .arr [.num 1, .num 1]])⟩

/-- A second small, plausible geometry, distinct from gSmall. -/
def gState : Geometry :=
  ⟨some (.arr [.arr [.num 2, .num 2], .arr [.num 3, .num 3]])⟩

/-- An implausibly wide geometry: 100 degrees of longitude span. -/
def gBig : Geometry :=
  ⟨some (.arr [.arr [.num 0, .num 0], .arr [.num 100, .num 50]])⟩

/-- A Feature payload wrapping gSmall. -/
def gjSmall : GeoJson := ⟨.feature, some gSmall, none, gSmall⟩

/-- A bare payload whose geometry field holds gState. -/
def gjState : GeoJson := ⟨.otherType, some gState, none, gState⟩

/-- An empty cache state. -/
def st0 : St := ⟨[], []⟩

/-- A House term for district 3 of California. -/
def tCA3 : LegislatorTerm := ⟨"B1", "Alice Smith", "Democrat", "CA", .house, some 3, "w1"⟩

/-- A House term for district 5 of Alaska (a hypothetical roster entry used
to exercise the bulk branch). -/
def tAK5 : LegislatorTerm := ⟨"B2", "Bob Jones", "Republican", "AK", .house, some 5, "w2"⟩

/-- A House term for district 5 of Texas. -/
def tTX5 : LegislatorTerm := ⟨"B3", "Carol White", "Republican", "TX", .house, some 5, "w3"⟩

/-- A House term for the post-2020 district 38 of Texas. -/
def tTX38 : LegislatorTerm := ⟨"B4", "Dan Brown", "Republican", "TX", .house, some 38, "w4"⟩

/-- An at-large House term for Nevada, district number 0. -/
def tNV0 : LegislatorTerm := ⟨"B5", "Eve Green", "Democrat", "NV", .house, some 0, "w5"⟩

/-- A second at-large House term for Nevada with an absent district number. -/
def tNVnone : LegislatorTerm := ⟨"B6", "Frank Gray", "Democrat", "NV", .house, none, "w6"⟩

/-- A Senate term; the fetcher resolves it to none without side effects. -/
def tSenate : LegislatorTerm := ⟨"B7", "Grace Black", "Democrat", "TX", .senate, none, "w7"⟩

/-- A House term for district 4 of New York. -/
def tNY4 : LegislatorTerm := ⟨"B8", "Hank Blue", "Democrat", "NY", .house, some 4, "w8"⟩

/-- A third at-large House term for Nevada, district number 0. -/
def tNV0b : LegislatorTerm := ⟨"B9", "Ivy Rose", "Republican", "NV", .house, some 0, "w9"⟩

/-- A House term for district 5 of California. -/
def tCA5w : LegislatorTerm := ⟨"B10", "Jack Stone", "Democrat", "CA", .house, some 5, "w10"⟩

/-- A cache state already holding the CA-3 geometry at vintage 2022. -/
def stWarm : St := ⟨[("2022-CA-3", gSmall)], []⟩

/-- World in which the only per-district record for CA-3 lives at vintage
2012; all other requests fail. -/
def wFallback : World :=
  { cds := fun u => if u = "/districts/cds/2012/CA-3/shape.geojson" then some gjSmall else none,
    bulk := fun _ => none,
    stateShape := fun _ => none }

/-- Bulk collection for Alaska containing district 5 with an implausibly
large geometry. -/
def collAKBig : StateColl := ⟨some [⟨some "5", some gBig⟩]⟩

/-- World serving only the 1789-2012 Alaska bulk file for the 2002 era,
whose district 5 feature carries the implausible geometry. -/
def wBulkBig : World :=
  { cds := fun _ => none,
    bulk := fun u => if u = "/districts/1789-2012/Alaska_108_to_112.geojson" then some collAKBig else none,
    stateShape := fun _ => none }

/-- World with no per-district records at all and a whole-state record for
Texas. -/
def wStateOnly : World :=
  { cds := fun _ => none,
    bulk := fun _ => none,
    stateShape := fun u => if u = "/districts/states/TX/shape.geojson" then some gjState else none }

/-- World whose only per-district record is district 1 of Texas at vintage
2012, exercising the post-2020 retry. -/
def wHack : World :=
  { cds := fun u => if u = "/districts/cds/2012/TX-1/shape.geojson" then some gjSmall else none,
    bulk := fun _ => none,
    stateShape := fun _ => none }

/-- World holding the at-large record of Nevada under the AL spelling at
vintage 2022. -/
def wNVAL : World :=
  { cds := fun u => if u = "/districts/cds/2022/NV-AL/shape.geojson" then some gjSmall else none,
    bulk := fun _ => none,
    stateShape := fun _ => none }

/-- World resolving CA-3 and NY-4 at vintage 2022 and nothing else; every
Texas request fails. -/
def wTwoGood : World :=
  { cds := fun u =>
      if u = "/districts/cds/2022/CA-3/shape.geojson" then some gjSmall
      else if u = "/districts/cds/2022/NY-4/shape.geojson" then some gjSmall
      else none,
    bulk := fun _ => none,
    stateShape := fun _ => none }

/-- A Feature payload wrapping the implausible geometry. -/
def gjBig : GeoJson := ⟨.feature, some gBig, none, gBig⟩

/-- World whose per-district record for CA-5 is a Feature wrapping the
implausible geometry, and which also serves a whole-state record for
California. -/
def wBadWithState : World :=
  { cds := fun u => if u = "/districts/cds/2022/CA-5/shape.geojson" then some gjBig else none,
    bulk := fun _ => none,
    stateShape := fun u => if u = "/districts/states/CA/shape.geojson" then some gjState else none }

theorem mget_nil {κ α : Type} [BEq κ] (k : κ) : mget ([] : List (κ × α)) k = none := rfl

theorem mget_cons {κ α : Type} [BEq κ] [LawfulBEq κ] [DecidableEq κ] (p : κ × α) (rest : List (κ × α))
    (k : κ) :
    mget (p :: rest) k = if p.1 = k then some p.2 else mget rest k := by
  by_cases h : p.1 = k
  · simp [mget, List.find?_cons_of_pos, h]
  · simp [mget, List.find?_cons_of_neg, h]

theorem mget_mset_self {κ α : Type} [BEq κ] [LawfulBEq κ] [DecidableEq κ] (m : List (κ × α)) (k : κ) (v : α) :
    mget (mset m k v) k = some v := by
  induction m with
  | nil => simp [mget_cons, mset]
  | cons p rest ih =>
    by_cases h : p.1 = k
    · simp [mset, h, mget_cons]
    · simp [mset, h, mget_cons, ih]

theorem mget_mset_ne {κ α : Type} [BEq κ] [LawfulBEq κ] [DecidableEq κ] (m : List (κ × α)) {k k' : κ}
    (v : α) (h : k ≠ k') : mget (mset m k v) k' = mget m k' := by
  induction m with
  | nil => simp [mget_cons, mget_nil, mset, h]
  | cons p rest ih =>
    by_cases hp : p.1 = k
    · have hp' : p.1 ≠ k' := fun hc => h (hp ▸ hc)
      simp [mset, hp, mget_cons, hp', h]
    · simp [mset, hp, mget_cons, ih]

theorem tryPairs_allFail (w : World) (l : List (Nat × String))
    (h : ∀ p ∈ l, w.cds (cdsUrl p.1 p.2) = none) :
    tryPairs w l = (none, l.map fun p => cdsUrl p.1 p.2) := by
  induction l with
  | nil => simp [tryPairs]
  | cons p rest ih =>
    obtain ⟨e, c⟩ := p
    have h0 : w.cds (cdsUrl e c) = none := h (e, c) (by simp)
    have := ih (fun q hq => h q (by simp [hq]))
    simp [tryPairs, h0, this]

theorem tryPairs_firstHit (w : World) (l1 l2 : List (Nat × String))
    (e : Nat) (c : String) (gj : GeoJson)
    (h1 : ∀ p ∈ l1, w.cds (cdsUrl p.1 p.2) = none)
    (h : w.cds (cdsUrl e c) = some gj) :
    tryPairs w (l1 ++ (e, c) :: l2) =
      (some (gj, c, e), (l1.map fun p => cdsUrl p.1 p.2) ++ [cdsUrl e c]) := by
  induction l1 with
  | nil => simp [tryPairs, h]
  | cons p rest ih =>
    obtain ⟨e', c'⟩ := p
    have h0 : w.cds (cdsUrl e' c') = none := h1 (e', c') (by simp)
    have := ih (fun q hq => h1 q (by simp [hq]))
    simp [tryPairs, h0, this]

theorem tryPairs_found_inv (w : World) (l : List (Nat × String))
    (gj : GeoJson) (c : String) (e : Nat)
    (h : (tryPairs w l).1 = some (gj, c, e)) :
    w.cds (cdsUrl e c) = some gj := by
  induction l with
  | nil => simp [tryPairs] at h
  | cons p rest ih =>
    obtain ⟨e', c'⟩ := p
    by_cases h0 : (w.cds (cdsUrl e' c')).isSome
    · obtain ⟨gj', hg⟩ := Option.isSome_iff_exists.mp h0
      simp [tryPairs, hg] at h
      obtain ⟨h1, h2, h3⟩ := h
      subst h1; subst h2; subst h3
      exact hg
    · have hg : w.cds (cdsUrl e' c') = none := Option.not_isSome_iff_eq_none.mp h0
      simp [tryPairs, hg] at h
      exact ih h

theorem cacheLookup_allMiss (cache : List (String × Geometry)) (era : Nat)
    (l : List String) (h : ∀ c ∈ l, mget cache (eraKey era c) = none) :
    cacheLookup cache era l = none := by
  induction l with
  | nil => rfl
  | cons c cs ih =>
    have h0 : mget cache (eraKey era c) = none := h c (by simp)
    simp [cacheLookup, h0, ih (fun x hx => h x (by simp [hx]))]

theorem load1789_bulkNone (w : World) (stateAbbr : String) (era : Nat)
    (st : St) (hB : ∀ u, w.bulk u = none)
    (hC : mget st.collCache (eraKey era stateAbbr) = none) :
    ∃ lg, load1789StateCollection w stateAbbr era st = (none, st, lg) := by
  unfold load1789StateCollection
  cases hn : abbrToStateName stateAbbr with
  | none => exact ⟨[], rfl⟩
  | some nm =>
    cases hr : eraToCongressRange era with
    | none => exact ⟨[], rfl⟩
    | some r => exact ⟨[bulkUrl nm r.1 r.2], by simp [hC, hB]⟩

theorem bulkPhase_skip (w : World) (term : LegislatorTerm) (d : Nat)
    (era : Nat) (st : St) (h : 2002 < era) :
    bulkPhase w term d era st = (none, st, []) := by
  unfold bulkPhase
  simp [Nat.not_le_of_lt h]

theorem bulkPhase_bulkNone (w : World) (term : LegislatorTerm) (d : Nat)
    (era : Nat) (st : St) (hB : ∀ u, w.bulk u = none)
    (hC : mget st.collCache (eraKey era term.state) = none) :
    ∃ lg, bulkPhase w term d era st = (none, st, lg) := by
  by_cases h : era ≤ 2002
  · obtain ⟨lg, hl⟩ := load1789_bulkNone w term.state era st hB hC
    exact ⟨lg, by unfold bulkPhase; simp [h, hl]⟩
  · exact ⟨[], bulkPhase_skip w term d era st (Nat.lt_of_not_le h)⟩

theorem handleFound_good (w : World) (term : LegislatorTerm) (d era : Nat)
    (gj : GeoJson) (uc : String) (ue : Nat) (st : St) (g : Geometry)
    (hN : normalizeCds gj = some g) (hG : bboxBad g = false) :
    handleFound w term d era (some (gj, uc, ue)) st =
      (some (mkFeature term g uc (dLabel d) era),
       { st with shapeCache := mset st.shapeCache (eraKey ue uc) g }, []) := by
  simp [handleFound, hN, postNormalize, hG]

theorem handleFound_none_stateOk (w : World) (term : LegislatorTerm)
    (d era : Nat) (st : St) (gjs : GeoJson) (sg : Geometry)
    (hs : w.stateShape (stateUrl term.state) = some gjs)
    (hn : normalizeStateGeo gjs = some sg) :
    handleFound w term d era none st =
      (some (mkFeature term sg ((candidatesFor term.state d).headD "") (dLabel d) era),
       { st with
           shapeCache := mset st.shapeCache (eraKey era ((candidatesFor term.state d).headD "")) sg },
       [stateUrl term.state]) := by
  simp [handleFound, fetchStateGeom, hs, hn]

theorem handleFound_none_stateFail (w : World) (term : LegislatorTerm)
    (d era : Nat) (st : St)
    (hs : w.stateShape (stateUrl term.state) = none) :
    handleFound w term d era none st = (none, st, [stateUrl term.state]) := by
  simp [handleFound, fetchStateGeom, hs]

theorem handleFound_none_someOut (w : World) (term : LegislatorTerm)
    (d era : Nat) (st : St) (f : OutFeature)
    (h : (handleFound w term d era none st).1 = some f) :
    ∃ gjs, w.stateShape (stateUrl term.state) = some gjs ∧
      normalizeStateGeo gjs = some f.geometry := by
  unfold handleFound fetchStateGeom at h
  cases hs : w.stateShape (stateUrl term.state) with
  | none => simp [hs] at h
  | some gjs =>
    cases hn : normalizeStateGeo gjs with
    | none => simp [hs, hn] at h
    | some sg =>
      simp [hs, hn] at h
      exact ⟨gjs, rfl, by rw [hn, ← h, mkFeature]⟩

theorem handleFound_bad_someOut (w : World) (term : LegislatorTerm)
    (d era : Nat) (gj : GeoJson) (uc : String) (ue : Nat) (st : St)
    (g : Geometry) (f : OutFeature)
    (hN : normalizeCds gj = some g) (hG : bboxBad g = true)
    (h : (handleFound w term d era (some (gj, uc, ue)) st).1 = some f) :
    ∃ gjs, w.stateShape (stateUrl term.state) = some gjs ∧
      normalizeStateGeo gjs = some f.geometry := by
  have h2 : (postNormalize w term d era g uc ue st).1 = some f := by
    simpa [handleFound, hN] using h
  unfold postNormalize fetchStateGeom at h2
  rw [hG] at h2
  simp only [if_true] at h2
  replace h := h2
  cases hs : w.stateShape (stateUrl term.state) with
  | none => simp [hs] at h
  | some gjs =>
    cases hn : normalizeStateGeo gjs with
    | none => simp [hs, hn] at h
    | some sg =>
      simp [hs, hn] at h
      exact ⟨gjs, rfl, by rw [hn, ← h, mkFeature]⟩

theorem flatMap_single {α β : Type} (l : List α) (f : α → β) :
    l.flatMap (fun a => [f a]) = l.map f := by
  induction l with
  | nil => rfl
  | cons x xs ih => simp [ih]

theorem fds_house_unfold (w : World) (term : LegislatorTerm) (year : Int)
    (st : St) (d : Nat)
    (hch : term.chamber = Chamber.house)
    (hd : term.district = some d) :
    fetchDistrictShape w term year st =
      (match bulkPhase w term d (getDistrictEra year) st with
       | (some f, st1, lg) => (some f, st1, lg)
       | (none, st1, lg) =>
         let pd := perDistrictPhase w term d (getDistrictEra year) st1
         (pd.1, pd.2.1, lg ++ pd.2.2)) := by
  unfold fetchDistrictShape
  rw [hch, hd]
  simp only [reduceCtorEq, if_false]

theorem fds_cacheHit (w : World) (term : LegislatorTerm) (year : Int)
    (st : St) (d : Nat) (code : String) (g : Geometry)
    (hch : term.chamber = Chamber.house)
    (hd : term.district = some d)
    (hera : 2002 < getDistrictEra year)
    (hcl : cacheLookup st.shapeCache (getDistrictEra year)
      (candidatesFor term.state d) = some (code, g)) :
    fetchDistrictShape w term year st =
      (some (mkFeature term g code (dLabel d) (getDistrictEra year)), st, []) := by
  rw [fds_house_unfold w term year st d hch hd]
  rw [bulkPhase_skip w term d _ st hera]
  simp [perDistrictPhase, hcl]

theorem fds_fallbackHit (w : World) (term : LegislatorTerm) (year : Int)
    (st : St) (d : Nat) (code : String) (l1 : List Nat) (fe : Nat)
    (l2 : List Nat) (gj : GeoJson) (g : Geometry)
    (hch : term.chamber = Chamber.house)
    (hd : term.district = some d)
    (hera : 2002 < getDistrictEra year)
    (hc : candidatesFor term.state d = [code])
    (hMiss : mget st.shapeCache (eraKey (getDistrictEra year) code) = none)
    (hPrim : w.cds (cdsUrl (getDistrictEra year) code) = none)
    (hSplit : fallbackEras (getDistrictEra year) = l1 ++ fe :: l2)
    (hl1 : ∀ e ∈ l1, w.cds (cdsUrl e code) = none)
    (hHit : w.cds (cdsUrl fe code) = some gj)
    (hN : normalizeCds gj = some g) (hG : bboxBad g = false) :
    fetchDistrictShape w term year st =
      (some (mkFeature term g code (dLabel d) (getDistrictEra year)),
       { st with shapeCache := mset st.shapeCache (eraKey fe code) g },
       cdsUrl (getDistrictEra year) code ::
         (l1.map fun e => cdsUrl e code) ++ [cdsUrl fe code]) := by
  rw [fds_house_unfold w term year st d hch hd]
  rw [bulkPhase_skip w term d _ st hera]
  have hclm : cacheLookup st.shapeCache (getDistrictEra year) [code] = none := by
    simp [cacheLookup, hMiss]
  have hprim : tryPairs w [(getDistrictEra year, code)] =
      (none, [cdsUrl (getDistrictEra year) code]) := by
    simpa using tryPairs_allFail w [(getDistrictEra year, code)] (by simpa using hPrim)
  have hfb : tryPairs w ((fallbackEras (getDistrictEra year)).flatMap
      fun e => [(e, code)]) =
      (some (gj, code, fe), (l1.map fun e => cdsUrl e code) ++ [cdsUrl fe code]) := by
    rw [show (fun e => [(e, code)]) = (fun e => [(fun x => (x, code)) e]) from rfl,
      flatMap_single, hSplit, List.map_append, List.map_cons]
    have := tryPairs_firstHit w (l1.map fun e => (e, code)) (l2.map fun e => (e, code))
      fe code gj (by
        intro p hp
        obtain ⟨e, he, hpe⟩ := List.mem_map.mp hp
        subst hpe
        exact hl1 e he) hHit
    simpa [List.map_map, Function.comp] using this
  simp [perDistrictPhase, hc, hclm, hprim, hfb,
    handleFound_good w term d (getDistrictEra year) gj code fe st g hN hG]

theorem fds_allFail (w : World) (term : LegislatorTerm) (year : Int)
    (st : St) (d : Nat)
    (hch : term.chamber = Chamber.house)
    (hd : term.district = some d)
    (hCds : ∀ u, w.cds u = none)
    (hBulk : ∀ u, w.bulk u = none)
    (hColl : mget st.collCache (eraKey (getDistrictEra year) term.state) = none)
    (hMiss : ∀ c ∈ candidatesFor term.state d,
      mget st.shapeCache (eraKey (getDistrictEra year) c) = none) :
    (fetchDistrictShape w term year st).1 =
      (handleFound w term d (getDistrictEra year) none st).1 ∧
    (fetchDistrictShape w term year st).2.1 =
      (handleFound w term d (getDistrictEra year) none st).2.1 := by
  rw [fds_house_unfold w term year st d hch hd]
  obtain ⟨lg, hbp⟩ := bulkPhase_bulkNone w term d (getDistrictEra year) st hBulk hColl
  rw [hbp]
  have hclm : cacheLookup st.shapeCache (getDistrictEra year)
      (candidatesFor term.state d) = none :=
    cacheLookup_allMiss _ _ _ hMiss
  have hprim := tryPairs_allFail w
    ((candidatesFor term.state d).map fun c => (getDistrictEra year, c))
    (fun p _ => hCds _)
  have hfb := tryPairs_allFail w
    ((fallbackEras (getDistrictEra year)).flatMap
      fun fe => (candidatesFor term.state d).map fun c => (fe, c))
    (fun p _ => hCds _)
  have hhk := tryPairs_allFail w
    ((hackCandidates term.state).map fun c => (2012, c))
    (fun p _ => hCds _)
  by_cases hif : 2022 ≤ getDistrictEra year ∧ 1 < d
  · simp [perDistrictPhase, hclm, hprim, hfb, hhk, hif]
  · simp [perDistrictPhase, hclm, hprim, hfb, hif]

theorem fds_hackHit (w : World) (term : LegislatorTerm) (year : Int)
    (st : St) (d : Nat) (code code1 : String) (gj : GeoJson) (g : Geometry)
    (hch : term.chamber = Chamber.house)
    (hd : term.district = some d)
    (hEra : getDistrictEra year = 2022)
    (hdgt : 1 < d)
    (hc : candidatesFor term.state d = [code])
    (hh : hackCandidates term.state = code1 :: (hackCandidates term.state).tail)
    (hMiss : mget st.shapeCache (eraKey 2022 code) = none)
    (hPrim : w.cds (cdsUrl 2022 code) = none)
    (hFbs : ∀ e ∈ fallbackEras 2022, w.cds (cdsUrl e code) = none)
    (hHit : w.cds (cdsUrl 2012 code1) = some gj)
    (hN : normalizeCds gj = some g) (hG : bboxBad g = false) :
    (fetchDistrictShape w term year st).1 =
      some (mkFeature term g code1 (dLabel d) 2022) ∧
    (fetchDistrictShape w term year st).2.1 =
      { st with shapeCache := mset st.shapeCache (eraKey 2012 code1) g } := by
  rw [fds_house_unfold w term year st d hch hd, hEra]
  rw [bulkPhase_skip w term d 2022 st (by norm_num)]
  have hclm : cacheLookup st.shapeCache 2022 [code] = none := by
    simp [cacheLookup, hMiss]
  have hprim : tryPairs w [(2022, code)] = (none, [cdsUrl 2022 code]) := by
    simpa using tryPairs_allFail w [(2022, code)] (by simpa using hPrim)
  have hfb : tryPairs w ((fallbackEras 2022).flatMap fun e => [(e, code)]) =
      (none, (fallbackEras 2022).map fun e => cdsUrl e code) := by
    rw [show (fun e => [(e, code)]) = (fun e => [(fun x => (x, code)) e]) from rfl,
      flatMap_single]
    have := tryPairs_allFail w ((fallbackEras 2022).map fun e => (e, code)) (by
      intro p hp
      obtain ⟨e, he, hpe⟩ := List.mem_map.mp hp
      subst hpe
      exact hFbs e he)
    simpa [List.map_map, Function.comp] using this
  have hhk : tryPairs w ((hackCandidates term.state).map fun c => (2012, c)) =
      (some (gj, code1, 2012), [cdsUrl 2012 code1]) := by
    rw [hh]
    simp [tryPairs, hHit]
  simp [perDistrictPhase, hc, hclm, hprim, hfb, hhk, hdgt,
    handleFound_good w term d 2022 gj code1 2012 st g hN hG]

theorem fds_atLargeHit (w : World) (term : LegislatorTerm) (year : Int)
    (st : St) (alC zeroC : String) (gj : GeoJson) (g : Geometry)
    (hch : term.chamber = Chamber.house)
    (hd : term.district = some 0)
    (hera : 2002 < getDistrictEra year)
    (hA : candidatesFor term.state 0 = [alC, zeroC])
    (hMA : mget st.shapeCache (eraKey (getDistrictEra year) alC) = none)
    (hM0 : mget st.shapeCache (eraKey (getDistrictEra year) zeroC) = none)
    (hW : w.cds (cdsUrl (getDistrictEra year) alC) = some gj ∨
      (w.cds (cdsUrl (getDistrictEra year) alC) = none ∧
       w.cds (cdsUrl (getDistrictEra year) zeroC) = some gj))
    (hN : normalizeCds gj = some g) (hG : bboxBad g = false) :
    ∃ k, (k = alC ∨ k = zeroC) ∧
      (fetchDistrictShape w term year st).1 =
        some (mkFeature term g k (dLabel 0) (getDistrictEra year)) ∧
      (fetchDistrictShape w term year st).2.1 =
        { st with shapeCache := mset st.shapeCache (eraKey (getDistrictEra year) k) g } := by
  rw [fds_house_unfold w term year st 0 hch hd]
  rw [bulkPhase_skip w term 0 _ st hera]
  have hclm : cacheLookup st.shapeCache (getDistrictEra year) [alC, zeroC] = none := by
    simp [cacheLookup, hMA, hM0]
  rcases hW with h | ⟨h1, h2⟩
  · refine ⟨alC, Or.inl rfl, ?_⟩
    have hprim : tryPairs w [(getDistrictEra year, alC), (getDistrictEra year, zeroC)] =
        (some (gj, alC, getDistrictEra year), [cdsUrl (getDistrictEra year) alC]) := by
      simp [tryPairs, h]
    simp [perDistrictPhase, hA, hclm, hprim,
      handleFound_good w term 0 (getDistrictEra year) gj alC (getDistrictEra year) st g hN hG]
  · refine ⟨zeroC, Or.inr rfl, ?_⟩
    have hprim : tryPairs w [(getDistrictEra year, alC), (getDistrictEra year, zeroC)] =
        (some (gj, zeroC, getDistrictEra year),
         [cdsUrl (getDistrictEra year) alC, cdsUrl (getDistrictEra year) zeroC]) := by
      simp [tryPairs, h1, h2]
    simp [perDistrictPhase, hA, hclm, hprim,
      handleFound_good w term 0 (getDistrictEra year) gj zeroC (getDistrictEra year) st g hN hG]

theorem resolveSeq_append (w : World) (year : Int) (st : St)
    (l1 l2 : List LegislatorTerm) :
    resolveSeq w year st (l1 ++ l2) =
      ((resolveSeq w year st l1).1 ++
        (resolveSeq w year (resolveSeq w year st l1).2.1 l2).1,
       (resolveSeq w year (resolveSeq w year st l1).2.1 l2).2.1,
       (resolveSeq w year st l1).2.2 ++
        (resolveSeq w year (resolveSeq w year st l1).2.1 l2).2.2) := by
  induction l1 generalizing st with
  | nil => simp [resolveSeq]
  | cons t ts ih =>
    simp only [List.cons_append]
    rcases hf : fetchDistrictShape w t year st with ⟨o, st1, lg⟩
    cases o with
    | some f => simp [resolveSeq, hf, ih st1]
    | none => simp [resolveSeq, hf, ih st1]

theorem loadStep_counter_eq (s : LoadState) (e : LoadStep) :
    (loadStep s e).counter =
      (match e with | .start _ => s.counter + 1 | _ => s.counter) := by
  cases e with
  | start inv => rfl
  | rosterCheck inv =>
    unfold loadStep
    rcases hmg : mget s.captured inv with _ | id
    · simp [hmg]
    · simp only [hmg]
      split <;> rfl
  | publish inv =>
    unfold loadStep
    rcases hmg : mget s.captured inv with _ | id
    · simp [hmg]
    · simp only [hmg]
      split <;> rfl

theorem loadStep_counter_mono (s : LoadState) (e : LoadStep) :
    s.counter ≤ (loadStep s e).counter := by
  rw [loadStep_counter_eq]
  cases e <;> simp

theorem loadRun_counter_mono (l : List LoadStep) (s : LoadState) :
    s.counter ≤ (loadRun s l).counter := by
  induction l generalizing s with
  | nil => exact le_refl _
  | cons e es ih =>
    exact le_trans (loadStep_counter_mono s e) (ih (loadStep s e))

theorem loadStep_captured_eq (s : LoadState) (e : LoadStep) :
    (loadStep s e).captured =
      (match e with
       | .start inv => mset s.captured inv (s.counter + 1)
       | _ => s.captured) := by
  cases e with
  | start inv => rfl
  | rosterCheck inv =>
    unfold loadStep
    rcases hmg : mget s.captured inv with _ | id
    · simp [hmg]
    · simp only [hmg]
      split <;> rfl
  | publish inv =>
    unfold loadStep
    rcases hmg : mget s.captured inv with _ | id
    · simp [hmg]
    · simp only [hmg]
      split <;> rfl

theorem loadStep_captured_stable (s : LoadState) (e : LoadStep) (A : Nat)
    (idA : Nat) (hne : e ≠ LoadStep.start A)
    (h : mget s.captured A = some idA) :
    mget (loadStep s e).captured A = some idA := by
  rw [loadStep_captured_eq]
  cases e with
  | start inv =>
    have hia : inv ≠ A := fun hc => hne (by rw [hc])
    simpa [mget_mset_ne _ _ hia] using h
  | rosterCheck inv => exact h
  | publish inv => exact h

theorem loadStep_published_sub (s : LoadState) (e : LoadStep) (A : Nat)
    (h : A ∈ (loadStep s e).published) :
    A ∈ s.published ∨
      ∃ inv, e = LoadStep.publish inv ∧ A = inv ∧
        mget s.captured inv = some s.counter := by
  cases e with
  | start inv =>
    left
    simpa [loadStep] using h
  | rosterCheck inv =>
    left
    unfold loadStep at h
    rcases hmg : mget s.captured inv with _ | id
    · simpa [hmg] using h
    · simp only [hmg] at h
      revert h
      split <;> intro h <;> simpa using h
  | publish inv =>
    unfold loadStep at h
    rcases hmg : mget s.captured inv with _ | id
    · left
      simpa [hmg] using h
    · simp only [hmg] at h
      by_cases hc : id = s.counter ∧ ¬ inv ∈ s.abortedAtRoster
      · rw [if_pos hc] at h
        rcases List.mem_append.mp h with h | h
        · exact Or.inl h
        · exact Or.inr ⟨inv, rfl, List.mem_singleton.mp h, by rw [hmg, hc.1]⟩
      · left
        rwa [if_neg hc] at h

theorem loadStep_published_stable (s : LoadState) (e : LoadStep) (A : Nat)
    (idA : Nat) (hcap : mget s.captured A = some idA)
    (hlt : idA < s.counter)
    (h : A ∈ (loadStep s e).published) : A ∈ s.published := by
  rcases loadStep_published_sub s e A h with h | ⟨inv, _, hA, hm⟩
  · exact h
  · subst hA
    rw [hm] at hcap
    cases hcap
    exact absurd rfl (Nat.ne_of_lt hlt)

theorem loadStep_captured_isSome (s : LoadState) (e : LoadStep) (i : Nat)
    (h : (mget s.captured i).isSome) :
    (mget (loadStep s e).captured i).isSome := by
  cases e with
  | start inv =>
    simp only [loadStep_captured_eq]
    by_cases hi : inv = i
    · subst hi
      simp [mget_mset_self]
    · rw [mget_mset_ne _ _ hi]
      exact h
  | rosterCheck inv => simpa only [loadStep_captured_eq] using h
  | publish inv => simpa only [loadStep_captured_eq] using h

theorem loadRun_start_captured (l : List LoadStep) (s : LoadState) (i : Nat)
    (h : LoadStep.start i ∈ l ∨ (mget s.captured i).isSome) :
    (mget (loadRun s l).captured i).isSome := by
  induction l generalizing s with
  | nil =>
    rcases h with h | h
    · cases h
    · exact h
  | cons e es ih =>
    rcases h with h | h
    · rcases List.mem_cons.mp h with he | he
      · apply ih (loadStep s e)
        right
        rw [← he]
        simp only [loadStep_captured_eq]
        simp [mget_mset_self]
      · exact ih (loadStep s e) (Or.inl he)
    · exact ih (loadStep s e) (Or.inr (loadStep_captured_isSome s e i h))

theorem loadStep_capInv (s : LoadState) (e : LoadStep) (h : CapInv s) :
    CapInv (loadStep s e) := by
  intro i id hm
  cases e with
  | start inv =>
    simp only [loadStep_captured_eq] at hm
    simp only [loadStep_counter_eq]
    by_cases hi : inv = i
    · subst hi
      rw [mget_mset_self] at hm
      cases hm
      exact le_refl _
    · rw [mget_mset_ne _ _ hi] at hm
      exact le_trans (h i id hm) (Nat.le_succ _)
  | rosterCheck inv =>
    simp only [loadStep_captured_eq] at hm
    simp only [loadStep_counter_eq]
    exact h i id hm
  | publish inv =>
    simp only [loadStep_captured_eq] at hm
    simp only [loadStep_counter_eq]
    exact h i id hm

theorem loadRun_capInv (l : List LoadStep) (s : LoadState) (h : CapInv s) :
    CapInv (loadRun s l) := by
  induction l generalizing s with
  | nil => exact h
  | cons e es ih => exact ih (loadStep s e) (loadStep_capInv s e h)

theorem initLoadState_capInv : CapInv initLoadState := by
  intro i id hm
  simp [initLoadState, mget_nil] at hm

theorem loadRun_stale (post : List LoadStep) (s : LoadState) (A idA : Nat)
    (hcap : mget s.captured A = some idA) (hlt : idA < s.counter)
    (hpost : LoadStep.start A ∉ post)
    (h : A ∈ (loadRun s post).published) : A ∈ s.published := by
  induction post generalizing s with
  | nil => exact h
  | cons e es ih =>
    have hne : e ≠ LoadStep.start A := by
      intro hc
      exact hpost (by rw [hc]; exact List.mem_cons_self _ _)
    have hcap' := loadStep_captured_stable s e A idA hne hcap
    have hlt' : idA < (loadStep s e).counter :=
      lt_of_lt_of_le hlt (loadStep_counter_mono s e)
    have hpost' : LoadStep.start A ∉ es := fun hc => hpost (List.mem_cons_of_mem _ hc)
    exact loadStep_published_stable s e A idA hcap hlt
      (ih (loadStep s e) hcap' hlt' hpost' h)

/-- C6: for every input year, getDistrictEra (vintageForYear) is total and
deterministic and returns exactly one vintage: 2022 for year at least 2023,
2012 for year at least 2013, 2002 for year at least 2003, 1992 for year at
least 1993, 1982 for year at least 1983, 1972 for year at least 1973, 1962
for year at least 1963, and the earliest vintage 1962 as a floor for every
earlier year; the intervals below characterize the function completely, so
no year is unmapped and no year maps to two vintages. -/
theorem claim_C6_vintageForYear_total (y : Int) :
    (getDistrictEra y = 2022 ↔ 2023 ≤ y) ∧
    (getDistrictEra y = 2012 ↔ 2013 ≤ y ∧ y < 2023) ∧
    (getDistrictEra y = 2002 ↔ 2003 ≤ y ∧ y < 2013) ∧
    (getDistrictEra y = 1992 ↔ 1993 ≤ y ∧ y < 2003) ∧
    (getDistrictEra y = 1982 ↔ 1983 ≤ y ∧ y < 1993) ∧
    (getDistrictEra y = 1972 ↔ 1973 ≤ y ∧ y < 1983) ∧
    (getDistrictEra y = 1962 ↔ y < 1973) := by
  unfold getDistrictEra
  split_ifs <;> omega

/-- C3: if a new loadRealData invocation starts before a prior one
completes, only the newer invocation output is ever published: each
invocation captures the incremented generation counter at start and
re-checks it before publishing, so an invocation A that started before B
can only be found published after the whole trace if it was already
published before B started -- its publish step after the start of B
abandons silently. -/
theorem claim_C3_staleness (A B : Nat) (pre post : List LoadStep)
    (hA : LoadStep.start A ∈ pre) (hAB : A ≠ B)
    (hpost : LoadStep.start A ∉ post)
    (h : A ∈ (loadRun (loadRun initLoadState (pre ++ [LoadStep.start B]))
      post).published) :
    A ∈ (loadRun initLoadState (pre ++ [LoadStep.start B])).published := by
  have hmid : loadRun initLoadState (pre ++ [LoadStep.start B]) =
      loadStep (loadRun initLoadState pre) (LoadStep.start B) := by
    simp [loadRun, List.foldl_append]
  have hsome : (mget (loadRun initLoadState pre).captured A).isSome :=
    loadRun_start_captured pre initLoadState A (Or.inl hA)
  obtain ⟨idA, hidA⟩ := Option.isSome_iff_exists.mp hsome
  have hinv : CapInv (loadRun initLoadState pre) :=
    loadRun_capInv pre initLoadState initLoadState_capInv
  have hle : idA ≤ (loadRun initLoadState pre).counter := hinv A idA hidA
  have hcap2 : mget (loadStep (loadRun initLoadState pre)
      (LoadStep.start B)).captured A = some idA := by
    simp only [loadStep_captured_eq]
    rw [mget_mset_ne _ _ (Ne.symm hAB)]
    exact hidA
  have hlt2 : idA < (loadStep (loadRun initLoadState pre)
      (LoadStep.start B)).counter := by
    simp only [loadStep_counter_eq]
    omega
  rw [hmid] at h ⊢
  exact loadRun_stale post _ A idA hcap2 hlt2 hpost h

/-- Witness for C3: invocation 1 starts, publishes before invocation 2
starts, and its later re-run of the checks after the start of 2 adds
nothing; the theorem applies to the concrete trace. -/
theorem claim_C3_staleness_witness :
    1 ∈ (loadRun initLoadState
      ([LoadStep.start 1, LoadStep.publish 1] ++ [LoadStep.start 2])).published :=
  claim_C3_staleness 1 2 [LoadStep.start 1, LoadStep.publish 1]
    [LoadStep.rosterCheck 1, LoadStep.publish 1]
    (by decide) (by decide) (by decide) (by decide)

/-- Counterexample to C1 as stated: with the CA-3 record present only at
vintage 2012, a request at vintage 2022 resolves through the older-vintage
fallback, but the geometry is cached only under the actually used key
2012-CA-3 -- the originally requested key 2022-CA-3 is never written -- and
a second identical request issues two further fetches. -/
theorem claim_C1_counterexample :
    (fetchDistrictShape wFallback tCA3 2024 st0).1 =
      some (mkFeature tCA3 gSmall "CA-3" "3" 2022) ∧
    mget (fetchDistrictShape wFallback tCA3 2024 st0).2.1.shapeCache
      "2012-CA-3" = some gSmall ∧
    mget (fetchDistrictShape wFallback tCA3 2024 st0).2.1.shapeCache
      "2022-CA-3" = none ∧
    getDistrictEra 2024 = 2022 ∧
    (fetchDistrictShape wFallback tCA3 2024
      (fetchDistrictShape wFallback tCA3 2024 st0).2.1).2.2.length = 2 :=
  ⟨rfl, rfl, rfl, rfl, rfl⟩

/-- Counterexample to C2 as stated: at vintage 2002 the bulk state
collection for Alaska matches district 5 with a geometry spanning 100
degrees of longitude, and the fetcher returns it as final output -- the
bounding-box validation does not run on the bulk-collection path. -/
theorem claim_C2_counterexample :
    getDistrictEra 2003 = 2002 ∧
    bboxBad gBig = true ∧
    (fetchDistrictShape wBulkBig tAK5 2003 st0).1 =
      some (mkFeature tAK5 gBig "AK-5" "5" 2002) :=
  ⟨rfl, rfl, rfl⟩

/-- Counterexample to C4 as stated: for requested vintage 2002 (year 2003)
the fallback loop fetches vintage 2012 -- a vintage strictly later than the
requested one -- and accepts it, returning its geometry cached under
2012-CA-3. -/
theorem claim_C4_counterexample :
    getDistrictEra 2003 = 2002 ∧
    (fetchDistrictShape wFallback tCA3 2003 st0).2.2.contains
      "/districts/cds/2012/CA-3/shape.geojson" = true ∧
    (fetchDistrictShape wFallback tCA3 2003 st0).1 =
      some (mkFeature tCA3 gSmall "CA-3" "3" 2002) ∧
    mget (fetchDistrictShape wFallback tCA3 2003 st0).2.1.shapeCache
      "2012-CA-3" = some gSmall :=
  ⟨rfl, rfl, rfl, rfl⟩

/-- Counterexample to C7 as stated: with every per-district request failing,
the numbered district TX-5 receives the whole-state Texas shape instead of
NotFound -- the whole-state fallback is not restricted to at-large
districts. -/
theorem claim_C7_counterexample :
    (fetchDistrictShape wStateOnly tTX5 2024 st0).1 =
      some (mkFeature tTX5 gState "TX-5" "5" 2022) ∧
    mget (fetchDistrictShape wStateOnly tTX5 2024 st0).2.1.shapeCache
      "2022-TX-5" = some gState :=
  ⟨rfl, rfl⟩

theorem fds_eq_perDistrict (w : World) (term : LegislatorTerm) (year : Int)
    (st : St) (d : Nat)
    (hch : term.chamber = Chamber.house) (hd : term.district = some d)
    (hera : 2002 < getDistrictEra year) :
    (fetchDistrictShape w term year st).1 =
      (perDistrictPhase w term d (getDistrictEra year) st).1 ∧
    (fetchDistrictShape w term year st).2.1 =
      (perDistrictPhase w term d (getDistrictEra year) st).2.1 := by
  rw [fds_house_unfold w term year st d hch hd,
    bulkPhase_skip w term d _ st hera]
  exact ⟨rfl, rfl⟩

theorem perDistrict_someOut (w : World) (term : LegislatorTerm)
    (d era : Nat) (st : St) (code : String)
    (hc : candidatesFor term.state d = [code])
    (hMiss : mget st.shapeCache (eraKey era code) = none)
    (hBad : ∀ u gj g, w.cds u = some gj → normalizeCds gj = some g →
      bboxBad g = true)
    (f : OutFeature)
    (h : (perDistrictPhase w term d era st).1 = some f) :
    ∃ gjs, w.stateShape (stateUrl term.state) = some gjs ∧
      normalizeStateGeo gjs = some f.geometry := by
  have hcl : cacheLookup st.shapeCache era [code] = none := by
    simp [cacheLookup, hMiss]
  simp only [perDistrictPhase, hc, hcl, List.map_cons, List.map_nil] at h
  cases hp1 : (tryPairs w [(era, code)]).1 with
  | some r =>
    obtain ⟨gj, c, e⟩ := r
    simp only [hp1] at h
    have hw := tryPairs_found_inv w _ gj c e hp1
    cases hn : normalizeCds gj with
    | none => simp [handleFound, hn] at h
    | some g =>
      exact handleFound_bad_someOut w term d era gj c e st g f hn
        (hBad _ _ _ hw hn) h
  | none =>
    simp only [hp1] at h
    cases hp2 : (tryPairs w ((fallbackEras era).flatMap
        fun e => [(e, code)])).1 with
    | some r =>
      obtain ⟨gj, c, e⟩ := r
      simp only [hp2] at h
      have hw := tryPairs_found_inv w _ gj c e hp2
      cases hn : normalizeCds gj with
      | none => simp [handleFound, hn] at h
      | some g =>
        exact handleFound_bad_someOut w term d era gj c e st g f hn
          (hBad _ _ _ hw hn) h
    | none =>
      simp only [hp2] at h
      by_cases hif : 2022 ≤ era ∧ 1 < d
      · simp only [hif, if_true] at h
        cases hp3 : (tryPairs w ((hackCandidates term.state).map
            fun c => (2012, c))).1 with
        | some r =>
          obtain ⟨gj, c, e⟩ := r
          simp only [hp3] at h
          have hw := tryPairs_found_inv w _ gj c e hp3
          cases hn : normalizeCds gj with
          | none => simp [handleFound, hn] at h
          | some g =>
            exact handleFound_bad_someOut w term d era gj c e st g f hn
              (hBad _ _ _ hw hn) h
        | none =>
          simp only [hp3] at h
          exact handleFound_none_someOut w term d era st f h
      · simp only [hif, if_false] at h
        exact handleFound_none_someOut w term d era st f h

/-- C2 amended: the bounding-box validation runs only on the per-district
record path (primary vintage, fallback vintage, or the 2012 retry); on that
path a geometry whose bounding extent exceeds the 30-degree threshold in
either axis is never returned as final output: the fetcher substitutes the
normalized whole-state record if available, else reports NotFound.
Geometries obtained from the bulk state collection, from the cache, or from
the whole-state fallback itself are returned without validation (see the
counterexample). -/
theorem claim_C2_amended (w : World) (term : LegislatorTerm) (year : Int)
    (st : St) (d : Nat) (code : String)
    (hch : term.chamber = Chamber.house) (hd : term.district = some d)
    (hera : 2002 < getDistrictEra year)
    (hc : candidatesFor term.state d = [code])
    (hMiss : mget st.shapeCache (eraKey (getDistrictEra year) code) = none)
    (hBad : ∀ u gj g, w.cds u = some gj → normalizeCds gj = some g →
      bboxBad g = true)
    (f : OutFeature)
    (hf : (fetchDistrictShape w term year st).1 = some f) :
    ∃ gjs, w.stateShape (stateUrl term.state) = some gjs ∧
      normalizeStateGeo gjs = some f.geometry := by
  rw [(fds_eq_perDistrict w term year st d hch hd hera).1] at hf
  exact perDistrict_someOut w term d (getDistrictEra year) st code hc hMiss
    hBad f hf

/-- Witness for the amended C2: the only per-district record of the witness
world is the implausible 100-degree CA-5 feature and a whole-state record
for California exists, so the fetcher substitutes the state geometry; the
theorem is applied at the concrete substituted output feature. -/
theorem claim_C2_amended_witness :
    ∃ gjs, wBadWithState.stateShape (stateUrl "CA") = some gjs ∧
      normalizeStateGeo gjs =
        some (mkFeature tCA5w gState "CA-5" "5" 2022).geometry :=
  claim_C2_amended wBadWithState tCA5w 2024 st0 5 "CA-5" rfl rfl (by decide)
    rfl rfl
    (by
      intro u gj g hu hn
      by_cases h : u = "/districts/cds/2022/CA-5/shape.geojson"
      · subst h
        simp only [wBadWithState, if_pos rfl] at hu
        cases hu
        simp only [gjBig, normalizeCds] at hn
        cases hn
        rfl
      · simp [wBadWithState, h] at hu)
    (mkFeature tCA5w gState "CA-5" "5" 2022) rfl

/-- C1 amended: for an already-cached (vintage, districtCode) pair at a
post-2002 vintage, a second resolution request returns the cached geometry,
leaves the caches untouched and issues no further fetch; and a geometry
resolved through the older-vintage fallback is written into the cache only
under its actually used (fallback vintage, code) key -- the originally
requested vintage key is not additionally written even though the two keys
differ.  (At vintages of 2002 and earlier the bulk-collection probe runs
before the cache is consulted and may itself fetch.) -/
theorem claim_C1_amended :
    (∀ (w : World) (term : LegislatorTerm) (year : Int) (st : St) (d : Nat)
       (code : String) (g : Geometry),
       term.chamber = Chamber.house → term.district = some d →
       2002 < getDistrictEra year →
       cacheLookup st.shapeCache (getDistrictEra year)
         (candidatesFor term.state d) = some (code, g) →
       fetchDistrictShape w term year st =
         (some (mkFeature term g code (dLabel d) (getDistrictEra year)),
          st, [])) ∧
    (∀ (w : World) (term : LegislatorTerm) (year : Int) (st : St) (d : Nat)
       (code : String) (l1 : List Nat) (fe : Nat) (l2 : List Nat)
       (gj : GeoJson) (g : Geometry),
       term.chamber = Chamber.house → term.district = some d →
       2002 < getDistrictEra year →
       candidatesFor term.state d = [code] →
       mget st.shapeCache (eraKey (getDistrictEra year) code) = none →
       w.cds (cdsUrl (getDistrictEra year) code) = none →
       fallbackEras (getDistrictEra year) = l1 ++ fe :: l2 →
       (∀ e ∈ l1, w.cds (cdsUrl e code) = none) →
       w.cds (cdsUrl fe code) = some gj →
       normalizeCds gj = some g → bboxBad g = false →
       fe ≠ getDistrictEra year ∧
       (fetchDistrictShape w term year st).2.1.shapeCache =
         mset st.shapeCache (eraKey fe code) g) := by
  constructor
  · exact fun w term year st d code g hch hd hera hcl =>
      fds_cacheHit w term year st d code g hch hd hera hcl
  · intro w term year st d code l1 fe l2 gj g hch hd hera hc hMiss hPrim
      hSplit hl1 hHit hN hG
    have hmem : fe ∈ fallbackEras (getDistrictEra year) := by
      rw [hSplit]
      simp
    have hne : fe ≠ getDistrictEra year := by
      have h := hmem
      simp [fallbackEras] at h
      exact h.2
    refine ⟨hne, ?_⟩
    rw [fds_fallbackHit w term year st d code l1 fe l2 gj g hch hd hera hc
      hMiss hPrim hSplit hl1 hHit hN hG]

/-- Witness for the amended C1: the cache-hit conjunct applied to a warmed
cache for CA-3 at vintage 2022, and the single-write conjunct applied to
the 2012 fallback scenario. -/
theorem claim_C1_amended_witness :
    fetchDistrictShape wFallback tCA3 2024 stWarm =
      (some (mkFeature tCA3 gSmall "CA-3" "3" 2022), stWarm, []) ∧
    ((2012 : Nat) ≠ 2022 ∧
     (fetchDistrictShape wFallback tCA3 2024 st0).2.1.shapeCache =
       mset st0.shapeCache (eraKey 2012 "CA-3") gSmall) :=
  ⟨claim_C1_amended.1 wFallback tCA3 2024 stWarm 3 "CA-3" gSmall rfl rfl
     (by decide) rfl,
   claim_C1_amended.2 wFallback tCA3 2024 st0 3 "CA-3" [] 2012
     [2002, 1992, 1982, 1972, 1962] gjSmall gSmall rfl rfl (by decide) rfl
     rfl rfl rfl (by simp) rfl rfl rfl⟩

/-- C4 amended: when the per-district request at the requested vintage
fails, the fetcher retries against the fixed list 2012, 2002, 1992, 1982,
1972, 1962 with the requested vintage removed, in that order, accepting the
first hit.  Every retried vintage differs from the requested one, and the
retried vintages are all strictly earlier only when the requested vintage
is at least 2012; for earlier requested vintages the list also contains
later vintages (see the counterexample, where vintage 2012 answers a 2002
request). -/
theorem claim_C4_amended :
    (∀ era : Nat, ∀ e ∈ fallbackEras era,
       e ≠ era ∧ e ∈ [2012, 2002, 1992, 1982, 1972, 1962]) ∧
    (∀ era : Nat, 2012 ≤ era → ∀ e ∈ fallbackEras era, e < era) ∧
    (∀ (w : World) (term : LegislatorTerm) (year : Int) (st : St) (d : Nat)
       (code : String) (l1 : List Nat) (fe : Nat) (l2 : List Nat)
       (gj : GeoJson) (g : Geometry),
       term.chamber = Chamber.house → term.district = some d →
       2002 < getDistrictEra year →
       candidatesFor term.state d = [code] →
       mget st.shapeCache (eraKey (getDistrictEra year) code) = none →
       w.cds (cdsUrl (getDistrictEra year) code) = none →
       fallbackEras (getDistrictEra year) = l1 ++ fe :: l2 →
       (∀ e ∈ l1, w.cds (cdsUrl e code) = none) →
       w.cds (cdsUrl fe code) = some gj →
       normalizeCds gj = some g → bboxBad g = false →
       fetchDistrictShape w term year st =
         (some (mkFeature term g code (dLabel d) (getDistrictEra year)),
          { st with shapeCache := mset st.shapeCache (eraKey fe code) g },
          cdsUrl (getDistrictEra year) code ::
            (l1.map fun e => cdsUrl e code) ++ [cdsUrl fe code])) := by
  refine ⟨?_, ?_, ?_⟩
  · intro era e he
    simp only [fallbackEras] at he
    simp at he
    refine ⟨he.2, ?_⟩
    rcases he.1 with rfl | rfl | rfl | rfl | rfl | rfl <;> simp
  · intro era h12 e he
    simp only [fallbackEras] at he
    simp at he
    rcases he with ⟨hmem, hne⟩
    rcases hmem with rfl | rfl | rfl | rfl | rfl | rfl <;> omega
  · exact fun w term year st d code l1 fe l2 gj g hch hd hera hc hMiss
      hPrim hSplit hl1 hHit hN hG =>
      fds_fallbackHit w term year st d code l1 fe l2 gj g hch hd hera hc
        hMiss hPrim hSplit hl1 hHit hN hG

/-- Witness for the amended C4: the membership conjuncts evaluated at
requested vintage 2002 and 2022, and the first-hit conjunct applied to the
2012 fallback for CA-3 at vintage 2022. -/
theorem claim_C4_amended_witness :
    ((2012 : Nat) ≠ 2002 ∧ 2012 ∈ [2012, 2002, 1992, 1982, 1972, 1962]) ∧
    (2012 : Nat) < 2022 ∧
    fetchDistrictShape wFallback tCA3 2024 st0 =
      (some (mkFeature tCA3 gSmall "CA-3" "3" 2022),
       { st0 with shapeCache := mset st0.shapeCache (eraKey 2012 "CA-3") gSmall },
       cdsUrl 2022 "CA-3" :: ([] : List Nat).map (fun e => cdsUrl e "CA-3") ++
         [cdsUrl 2012 "CA-3"]) :=
  ⟨claim_C4_amended.1 2002 2012 (by decide),
   claim_C4_amended.2.1 2022 (by decide) 2012 (by decide),
   claim_C4_amended.2.2 wFallback tCA3 2024 st0 3 "CA-3" [] 2012
     [2002, 1992, 1982, 1972, 1962] gjSmall gSmall rfl rfl (by decide) rfl
     rfl rfl rfl (by simp) rfl rfl rfl⟩

/-- C7 amended: the whole-state fallback is attempted whenever every
per-district strategy has failed, for at-large and numbered districts
alike: a district whose bulk, cache and per-district lookups are all
exhausted receives the state whole-boundary shape (cached under the
requested vintage and the first candidate code) whenever the state record
is available and normalizes, and NotFound only when the state record also
fails. -/
theorem claim_C7_amended (w : World) (term : LegislatorTerm) (year : Int)
    (st : St) (d : Nat)
    (hch : term.chamber = Chamber.house) (hd : term.district = some d)
    (hCds : ∀ u, w.cds u = none) (hBulk : ∀ u, w.bulk u = none)
    (hColl : mget st.collCache (eraKey (getDistrictEra year) term.state) = none)
    (hMiss : ∀ c ∈ candidatesFor term.state d,
      mget st.shapeCache (eraKey (getDistrictEra year) c) = none) :
    (∀ gjs sg, w.stateShape (stateUrl term.state) = some gjs →
       normalizeStateGeo gjs = some sg →
       (fetchDistrictShape w term year st).1 =
         some (mkFeature term sg ((candidatesFor term.state d).headD "")
           (dLabel d) (getDistrictEra year)) ∧
       mget (fetchDistrictShape w term year st).2.1.shapeCache
         (eraKey (getDistrictEra year)
           ((candidatesFor term.state d).headD "")) = some sg) ∧
    (w.stateShape (stateUrl term.state) = none →
       (fetchDistrictShape w term year st).1 = none ∧
       (fetchDistrictShape w term year st).2.1 = st) := by
  obtain ⟨h1, h2⟩ := fds_allFail w term year st d hch hd hCds hBulk hColl hMiss
  constructor
  · intro gjs sg hs hn
    rw [h1, h2, handleFound_none_stateOk w term d (getDistrictEra year) st gjs sg hs hn]
    exact ⟨rfl, mget_mset_self _ _ _⟩
  · intro hs
    rw [h1, h2, handleFound_none_stateFail w term d (getDistrictEra year) st hs]
    exact ⟨rfl, rfl⟩

/-- Witness for the amended C7: the numbered district TX-5 with every
per-district request failing receives the whole-state Texas shape. -/
theorem claim_C7_amended_witness :
    (fetchDistrictShape wStateOnly tTX5 2024 st0).1 =
      some (mkFeature tTX5 gState ((candidatesFor "TX" 5).headD "") (dLabel 5) 2022) ∧
    mget (fetchDistrictShape wStateOnly tTX5 2024 st0).2.1.shapeCache
      (eraKey 2022 ((candidatesFor "TX" 5).headD "")) = some gState :=
  (claim_C7_amended wStateOnly tTX5 2024 st0 5 rfl rfl (fun _ => rfl)
    (fun _ => rfl) rfl (fun c _ => rfl)).1 gjState gState rfl rfl

/-- C9: for requested vintage 2022 (years 2023 and later) and a numbered
district greater than 1, when the per-district record is missing at the
requested vintage and at every fallback vintage, the fetcher additionally
tries the 2012 records for district 1, AL and 0 of the same state; on a
hit with a plausible geometry it returns that geometry annotated with the
originally requested district label while the key records the other
district -- so the output feature carries a geometry belonging to a
different district than its label claims. -/
theorem claim_C9_postCensusRetry (w : World) (term : LegislatorTerm)
    (year : Int) (st : St) (d : Nat) (code code1 : String) (gj : GeoJson)
    (g : Geometry)
    (hch : term.chamber = Chamber.house)
    (hd : term.district = some d)
    (hEra : getDistrictEra year = 2022)
    (hdgt : 1 < d)
    (hc : candidatesFor term.state d = [code])
    (hh : hackCandidates term.state = code1 :: (hackCandidates term.state).tail)
    (hMiss : mget st.shapeCache (eraKey 2022 code) = none)
    (hPrim : w.cds (cdsUrl 2022 code) = none)
    (hFbs : ∀ e ∈ fallbackEras 2022, w.cds (cdsUrl e code) = none)
    (hHit : w.cds (cdsUrl 2012 code1) = some gj)
    (hN : normalizeCds gj = some g) (hG : bboxBad g = false) :
    (fetchDistrictShape w term year st).1 =
      some (mkFeature term g code1 (dLabel d) 2022) ∧
    (mkFeature term g code1 (dLabel d) 2022).district = dLabel d ∧
    (mkFeature term g code1 (dLabel d) 2022).key = code1 ∧
    mget (fetchDistrictShape w term year st).2.1.shapeCache
      (eraKey 2012 code1) = some g := by
  obtain ⟨h1, h2⟩ := fds_hackHit w term year st d code code1 gj g hch hd hEra
    hdgt hc hh hMiss hPrim hFbs hHit hN hG
  refine ⟨h1, rfl, rfl, ?_⟩
  rw [h2]
  exact mget_mset_self _ _ _

/-- Witness for C9: TX-38 at year 2024 resolves to the 2012 geometry of
TX-1, labelled district 38. -/
theorem claim_C9_postCensusRetry_witness :
    (fetchDistrictShape wHack tTX38 2024 st0).1 =
      some (mkFeature tTX38 gSmall "TX-1" (dLabel 38) 2022) ∧
    (mkFeature tTX38 gSmall "TX-1" (dLabel 38) 2022).district = dLabel 38 ∧
    (mkFeature tTX38 gSmall "TX-1" (dLabel 38) 2022).key = "TX-1" ∧
    mget (fetchDistrictShape wHack tTX38 2024 st0).2.1.shapeCache
      (eraKey 2012 "TX-1") = some gSmall :=
  claim_C9_postCensusRetry wHack tTX38 2024 st0 38 "TX-38" "TX-1" gjSmall
    gSmall rfl rfl rfl (by decide) rfl rfl rfl rfl
    (by intro e he; fin_cases he <;> rfl) rfl rfl rfl

/-- C10: when a geometry is obtained through a fallback vintage different
from the requested one, the returned feature still carries the originally
requested vintage in its era annotation, while the cache entry for that
geometry is keyed by the actually used fallback vintage -- the published
per-feature vintage metadata disagrees with the vintage of the geometry it
carries. -/
theorem claim_C10_eraAnnotationMismatch (w : World) (term : LegislatorTerm)
    (year : Int) (st : St) (d : Nat) (code : String) (l1 : List Nat)
    (fe : Nat) (l2 : List Nat) (gj : GeoJson) (g : Geometry)
    (hch : term.chamber = Chamber.house) (hd : term.district = some d)
    (hera : 2002 < getDistrictEra year)
    (hc : candidatesFor term.state d = [code])
    (hMiss : mget st.shapeCache (eraKey (getDistrictEra year) code) = none)
    (hPrim : w.cds (cdsUrl (getDistrictEra year) code) = none)
    (hSplit : fallbackEras (getDistrictEra year) = l1 ++ fe :: l2)
    (hl1 : ∀ e ∈ l1, w.cds (cdsUrl e code) = none)
    (hHit : w.cds (cdsUrl fe code) = some gj)
    (hN : normalizeCds gj = some g) (hG : bboxBad g = false) :
    (fetchDistrictShape w term year st).1 =
      some (mkFeature term g code (dLabel d) (getDistrictEra year)) ∧
    (mkFeature term g code (dLabel d) (getDistrictEra year)).era =
      getDistrictEra year ∧
    mget (fetchDistrictShape w term year st).2.1.shapeCache
      (eraKey fe code) = some g ∧
    fe ≠ getDistrictEra year := by
  have heq := fds_fallbackHit w term year st d code l1 fe l2 gj g hch hd
    hera hc hMiss hPrim hSplit hl1 hHit hN hG
  have hmem : fe ∈ fallbackEras (getDistrictEra year) := by
    rw [hSplit]
    simp
  have hne : fe ≠ getDistrictEra year := by
    simp [fallbackEras] at hmem
    exact hmem.2
  rw [heq]
  exact ⟨rfl, rfl, mget_mset_self _ _ _, hne⟩

/-- Witness for C10: CA-3 requested at vintage 2022 is served by the 2012
record; the feature era annotation reads 2022 while the cache key reads
2012. -/
theorem claim_C10_eraAnnotationMismatch_witness :
    (fetchDistrictShape wFallback tCA3 2024 st0).1 =
      some (mkFeature tCA3 gSmall "CA-3" "3" 2022) ∧
    (mkFeature tCA3 gSmall "CA-3" "3" 2022).era = 2022 ∧
    mget (fetchDistrictShape wFallback tCA3 2024 st0).2.1.shapeCache
      (eraKey 2012 "CA-3") = some gSmall ∧
    (2012 : Nat) ≠ 2022 :=
  claim_C10_eraAnnotationMismatch wFallback tCA3 2024 st0 3 "CA-3" [] 2012
    [2002, 1992, 1982, 1972, 1962] gjSmall gSmall rfl rfl (by decide) rfl
    rfl rfl rfl (by simp) rfl rfl rfl

/-- C8: the batch resolver always completes, and a district that is
unresolvable on every strategy (its resolution returns NotFound without
touching the caches) is silently absent from the output collection while
every other district resolves exactly as it would without it; no
per-district failure is fatal to the batch. -/
theorem claim_C8_partialFailure (w : World) (terms : List LegislatorTerm)
    (year : Int) (st : St) (u1 u2 : List LegislatorTerm)
    (bad : LegislatorTerm)
    (hU : uniqueTermsOf terms = u1 ++ bad :: u2)
    (hBad1 : (fetchDistrictShape w bad year
      (resolveSeq w year st u1).2.1).1 = none)
    (hBad2 : (fetchDistrictShape w bad year
      (resolveSeq w year st u1).2.1).2.1 = (resolveSeq w year st u1).2.1) :
    (fetchAllDistrictShapesForYear w terms year st).1 =
      (resolveSeq w year st (u1 ++ u2)).1 := by
  unfold fetchAllDistrictShapesForYear
  rw [hU, resolveSeq_append w year st u1 (bad :: u2),
    resolveSeq_append w year st u1 u2]
  have hstep : (resolveSeq w year (resolveSeq w year st u1).2.1
      (bad :: u2)).1 = (resolveSeq w year (resolveSeq w year st u1).2.1 u2).1 := by
    rcases hf : fetchDistrictShape w bad year (resolveSeq w year st u1).2.1
      with ⟨o, s2, lg⟩
    have ho : o = none := by
      have := hBad1
      rw [hf] at this
      exact this
    have hs : s2 = (resolveSeq w year st u1).2.1 := by
      have := hBad2
      rw [hf] at this
      exact this
    subst ho
    subst hs
    simp [resolveSeq, hf]
  simp [hstep]

/-- Witness for C8: in a roster of three districts, TX-5 is unresolvable on
every strategy while CA-3 and NY-4 resolve; the output equals the run
without TX-5. -/
theorem claim_C8_partialFailure_witness :
    (fetchAllDistrictShapesForYear wTwoGood [tCA3, tTX5, tNY4] 2024 st0).1 =
      (resolveSeq wTwoGood 2024 st0 ([tCA3] ++ [tNY4])).1 :=
  claim_C8_partialFailure wTwoGood [tCA3, tTX5, tNY4] 2024 st0 [tCA3]
    [tNY4] tTX5 rfl rfl rfl

/-- C5: the two at-large spellings -- the numeric sentinel 0 (or an absent
district number) and the symbolic label AL -- are one identity: the
deduplication code of a district-0 term and of an absent-district term of
the same state coincide, the batch resolver deduplicates the two to a
single entry, and resolving the at-large district of a state at a fixed
post-2002 vintage writes exactly one cache entry under one of the two
spellings, which a subsequent at-large resolution for the same state and
vintage shares (returning the same geometry with no further fetch and no
state change) rather than creating a second entry. -/
theorem claim_C5_atLargeIdentity :
    (∀ t1 t2 : LegislatorTerm, t1.state = t2.state →
       t1.district = some 0 → t2.district = none →
       dedupCode t1 = dedupCode t2) ∧
    (∀ t1 t2 : LegislatorTerm, t1.chamber = Chamber.house →
       t2.chamber = Chamber.house → t1.state = t2.state →
       t1.district = some 0 → t2.district = none →
       uniqueTermsOf [t1, t2] = [t1]) ∧
    (∀ (w : World) (t1 t2 : LegislatorTerm) (year : Int) (st : St)
       (alC zeroC : String) (gj : GeoJson) (g : Geometry),
       t1.chamber = Chamber.house → t2.chamber = Chamber.house →
       t2.state = t1.state →
       t1.district = some 0 → t2.district = some 0 →
       2002 < getDistrictEra year →
       candidatesFor t1.state 0 = [alC, zeroC] →
       eraKey (getDistrictEra year) alC ≠ eraKey (getDistrictEra year) zeroC →
       mget st.shapeCache (eraKey (getDistrictEra year) alC) = none →
       mget st.shapeCache (eraKey (getDistrictEra year) zeroC) = none →
       (w.cds (cdsUrl (getDistrictEra year) alC) = some gj ∨
         (w.cds (cdsUrl (getDistrictEra year) alC) = none ∧
          w.cds (cdsUrl (getDistrictEra year) zeroC) = some gj)) →
       normalizeCds gj = some g → bboxBad g = false →
       ∃ k, (k = alC ∨ k = zeroC) ∧
         (fetchDistrictShape w t1 year st).2.1 =
           { st with
               shapeCache := mset st.shapeCache (eraKey (getDistrictEra year) k) g } ∧
         fetchDistrictShape w t2 year (fetchDistrictShape w t1 year st).2.1 =
           (some (mkFeature t2 g k (dLabel 0) (getDistrictEra year)),
            (fetchDistrictShape w t1 year st).2.1, [])) := by
  have p1 : ∀ t1 t2 : LegislatorTerm, t1.state = t2.state →
      t1.district = some 0 → t2.district = none →
      dedupCode t1 = dedupCode t2 := by
    intro t1 t2 hst hd1 hd2
    simp [dedupCode, hd1, hd2, hst]
  refine ⟨p1, ?_, ?_⟩
  · intro t1 t2 hch1 hch2 hst hd1 hd2
    have hcd := p1 t1 t2 hst hd1 hd2
    unfold uniqueTermsOf
    simp [byDistrictAux, hch1, hch2, mget_nil, mget_cons, hcd]
  · intro w t1 t2 year st alC zeroC gj g hch1 hch2 hst hd1 hd2 hera hA
      hkne hMA hM0 hW hN hG
    obtain ⟨k, hk, h1, h2⟩ := fds_atLargeHit w t1 year st alC zeroC gj g
      hch1 hd1 hera hA hMA hM0 hW hN hG
    refine ⟨k, hk, h2, ?_⟩
    have hA2 : candidatesFor t2.state 0 = [alC, zeroC] := by
      rw [hst]
      exact hA
    have hcl : cacheLookup (fetchDistrictShape w t1 year st).2.1.shapeCache
        (getDistrictEra year) (candidatesFor t2.state 0) = some (k, g) := by
      rw [hA2, h2]
      rcases hk with rfl | rfl
      · simp [cacheLookup, mget_mset_self]
      · have hgetAl : mget (mset st.shapeCache
            (eraKey (getDistrictEra year) k) g)
            (eraKey (getDistrictEra year) alC) = none := by
          rw [mget_mset_ne _ _ (Ne.symm hkne)]
          exact hMA
        simp [cacheLookup, hgetAl, mget_mset_self]
    exact fds_cacheHit w t2 year (fetchDistrictShape w t1 year st).2.1 0 k g
      hch2 hd2 hera hcl

/-- Witness for C5: the Nevada at-large district resolved through the AL
spelling at vintage 2022 is shared by a second at-large resolution for the
same state, with a single cache entry and no further fetch. -/
theorem claim_C5_atLargeIdentity_witness :
    dedupCode tNV0 = dedupCode tNVnone ∧
    uniqueTermsOf [tNV0, tNVnone] = [tNV0] ∧
    (∃ k, (k = "NV-AL" ∨ k = "NV-0") ∧
      (fetchDistrictShape wNVAL tNV0 2024 st0).2.1 =
        { st0 with shapeCache := mset st0.shapeCache (eraKey 2022 k) gSmall } ∧
      fetchDistrictShape wNVAL tNV0b 2024
        (fetchDistrictShape wNVAL tNV0 2024 st0).2.1 =
        (some (mkFeature tNV0b gSmall k (dLabel 0) 2022),
         (fetchDistrictShape wNVAL tNV0 2024 st0).2.1, [])) :=
  ⟨claim_C5_atLargeIdentity.1 tNV0 tNVnone rfl rfl rfl,
   claim_C5_atLargeIdentity.2.1 tNV0 tNVnone rfl rfl rfl rfl rfl,
   claim_C5_atLargeIdentity.2.2 wNVAL tNV0 tNV0b 2024 st0 "NV-AL" "NV-0"
     gjSmall gSmall rfl rfl rfl rfl rfl (by decide) rfl (by decide) rfl rfl
     (Or.inl rfl) rfl rfl⟩

end CAC
